import Mathlib

/-!
# Verification of the crypto price alert system (`src/app.py`)

Shallow embedding of the Flask application in `src/app.py`:

* prices and bounds (Python floats) are modelled as rationals `ℚ`
  (the code only constructs, compares and stores them);
* the global dict `alerts` is an association list from symbol to the
  ordered list of alert rules, mirroring the insertion-ordered Python dict;
* exceptions are modelled with `Except`: a `.error` value is a raised
  Python exception, carrying the state of the store at the raise;
* the network and SMTP environment is an explicit parameter: for every
  symbol the outcome of the HTTP fetch, and for every SMTP session the
  outcome of the send.
-/

set_option autoImplicit false

namespace CryptoAlert

/-- A Python exception relevant to this program. -/
inductive PyExn where
  | keyError (key : String)
  | valueError
  deriving DecidableEq, Repr

/-- A Python value returned by a function (only the cases this program uses:
`send_email_alert` has no `return` statement, so it returns Python `None`). -/
inductive PyVal where
  | none
  | str (s : String)
  deriving DecidableEq, Repr

/-- One alert rule, as stored in the `alerts` dict by `set_alert`
(`src/app.py` lines 106-110): the dict
`{'upper_bound': ..., 'lower_bound': ..., 'email': ...}`. -/
structure AlertRule where
  upper_bound : ℚ
  lower_bound : ℚ
  email : String
  deriving DecidableEq, Repr

/-- The global `alerts` dict (`src/app.py` line 30): mapping from lowercased
symbol to the ordered list of rules, insertion-ordered like a Python dict. -/
abbrev Store := List (String × List AlertRule)

/-- Dict lookup `alerts[sym]` / membership test `sym in alerts`. -/
def storeLookup (store : Store) (k : String) : Option (List AlertRule) :=
  match store with
  | [] => Option.none
  | p :: rest => if p.1 = k then some p.2 else storeLookup rest k

/-- Dict item update `alerts[k] = f (alerts[k])` on the first entry with key
`k` (a Python dict holds each key once). -/
def storeUpdate (store : Store) (k : String) (f : List AlertRule → List AlertRule) :
    Store :=
  match store with
  | [] => []
  | p :: rest => if p.1 = k then (p.1, f p.2) :: rest else p :: storeUpdate rest k f

/-! ## Price fetching (`get_crypto_price`, lines 37-48)

The HTTP layer is modelled by the outcome the `requests` session delivers:

* `HttpResult.exn`: a `requests.exceptions.RequestException` was raised
  somewhere in `session.get` (connection error, retries exhausted),
  `response.raise_for_status()` (HTTP error status) or `response.json()`
  (malformed body; `requests.exceptions.JSONDecodeError` is a
  `RequestException`).  The `except` clause at line 46 catches exactly this
  class and returns `None`.
* `HttpResult.ok data`: a decoded JSON object, an association of symbol to
  an association of currency name to price. -/
inductive HttpResult where
  | exn
  | ok (data : List (String × List (String × ℚ)))

/-- JSON object field access `data[k]`: raises `KeyError` when absent. -/
def jsonGet {α : Type} (data : List (String × α)) (k : String) : Except PyExn α :=
  match data with
  | [] => .error (.keyError k)
  | p :: rest => if p.1 = k then .ok p.2 else jsonGet rest k

/-- `get_crypto_price(crypto_symbol)` (lines 37-48).  Returns `.ok none` for
the Python `return None` on a caught `RequestException`; returns
`.error (KeyError ...)` when `data[crypto_symbol]['usd']` raises (those
lookups sit inside the `try`, but `KeyError` is not a
`RequestException`, so it propagates to the caller). -/
def get_crypto_price (crypto_symbol : String) (r : HttpResult) :
    Except PyExn (Option ℚ) :=
  match r with
  | .exn => .ok Option.none
  | .ok data =>
    match jsonGet data crypto_symbol with
    | .error e => .error e
    | .ok obj =>
      match jsonGet obj "usd" with
      | .error e => .error e
      | .ok price => .ok (some price)

/-! ## Email sending (`send_email_alert`, lines 50-68) -/

/-- Outcome of one SMTP session: delivery succeeded, `SMTPAuthenticationError`
raised at `server.login`, or any other `Exception` raised inside the `with`
block. -/
inductive SendOutcome where
  | success
  | authError
  | otherError
  deriving DecidableEq, Repr

/-- What a call to `send_email_alert` produces: whether the message was
actually transmitted, and the Python return value (an exception would be
`.error`). -/
structure SendResult where
  delivered : Bool
  ret : Except PyExn PyVal

/-- `send_email_alert(recipient, subject, body)` (lines 50-68).  The whole
SMTP interaction sits in a `try` whose `except smtplib.SMTPAuthenticationError`
and `except Exception` clauses both just log; every path then falls through to
the implicit `return None`. -/
def send_email_alert (recipient subject body : String) (o : SendOutcome) :
    SendResult :=
  match o with
  | .success => { delivered := true, ret := .ok .none }
  | .authError => { delivered := false, ret := .ok .none }
  | .otherError => { delivered := false, ret := .ok .none }

/-! ## The evaluation tick (`check_alerts`, lines 70-86) -/

/-- Direction of a breach alert, as composed into the message at
lines 79 and 83 (`"is above $..."` / `"is below $..."`). -/
inductive Dir where
  | above
  | below
  deriving DecidableEq, Repr

/-- One call to `send_email_alert` made by `check_alerts`: the recipient and
the content of the composed alert message (symbol, fetched price, breached
bound, direction). -/
structure Event where
  recipient : String
  direction : Dir
  symbol : String
  price : ℚ
  bound : ℚ
  deriving DecidableEq, Repr

/-- The external environment for one tick: per-symbol HTTP outcome and
per-SMTP-session outcome (indexed by the number of sends already made in
the tick). -/
structure Env where
  fetch : String → HttpResult
  send : Nat → SendOutcome

/-- The inner loop of `check_alerts` (lines 76-85): for each rule under
`sym`, compare the fetched price against the bounds and send an email on a
breach.  Threads the send counter `n`, the global store `st` (which the loop
body never assigns) and the accumulated list of send calls.  If a call to
`send_email_alert` raised, the exception would propagate out of the tick. -/
def evalRules (env : Env) (sym : String) (price : ℚ) :
    List AlertRule → Nat → Store → List Event →
    Except (PyExn × Store) (List Event × Nat × Store)
  | [], n, st, acc => .ok (acc, n, st)
  | rule :: rest, n, st, acc =>
    if price > rule.upper_bound then
      match (send_email_alert rule.email "Crypto Price Alert"
          "alert message" (env.send n)).ret with
      | .error e => .error (e, st)
      | .ok _ =>
        evalRules env sym price rest (n + 1) st
          (acc ++ [⟨rule.email, .above, sym, price, rule.upper_bound⟩])
    else if price < rule.lower_bound then
      match (send_email_alert rule.email "Crypto Price Alert"
          "alert message" (env.send n)).ret with
      | .error e => .error (e, st)
      | .ok _ =>
        evalRules env sym price rest (n + 1) st
          (acc ++ [⟨rule.email, .below, sym, price, rule.lower_bound⟩])
    else
      evalRules env sym price rest n st acc

/-- The outer loop of `check_alerts` (lines 73-85): for each
`(crypto_symbol, alert_data)` item of the dict, fetch the price; a fetch
that returned `None` skips the symbol; an exception raised by
`get_crypto_price` propagates out of the tick. -/
def evalSymbols (env : Env) :
    List (String × List AlertRule) → Nat → Store → List Event →
    Except (PyExn × Store) (List Event × Nat × Store)
  | [], n, st, acc => .ok (acc, n, st)
  | (sym, rules) :: rest, n, st, acc =>
    match get_crypto_price sym (env.fetch sym) with
    | .error e => .error (e, st)
    | .ok Option.none => evalSymbols env rest n st acc
    | .ok (some price) =>
      match evalRules env sym price rules n st acc with
      | .error es => .error es
      | .ok (acc', n', st') => evalSymbols env rest n' st' acc'

/-- `check_alerts()` (lines 70-86): one evaluation tick over the current
store.  Returns the list of send calls made and the store after the tick
(`.error` carries the raised exception and the store at the raise). -/
def check_alerts (env : Env) (store : Store) :
    Except (PyExn × Store) (List Event × Store) :=
  match evalSymbols env store 0 store [] with
  | .error es => .error es
  | .ok (evts, _, st) => .ok (evts, st)

/-- The store component of a tick result, whether the tick returned or
raised. -/
def storeAfter (r : Except (PyExn × Store) (List Event × Store)) : Store :=
  match r with
  | .error (_, st) => st
  | .ok (_, st) => st

/-- The events component of a tick result, when the tick returned. -/
def tickEvents (r : Except (PyExn × Store) (List Event × Store)) :
    Option (List Event) :=
  match r with
  | .error _ => Option.none
  | .ok (evts, _) => some evts

/-! ## Registration (`set_alert`, lines 92-113) -/

/-- The JSON body of a `/set_alert` request.  A field is `none` when absent
from the request (`data[...]` raises `KeyError`); a bound field is
`some none` when present but not parseable by `float(...)` (raises
`ValueError`), and `some (some q)` when it parses to `q`. -/
structure SetAlertRequest where
  crypto_symbol : Option String
  upper_bound : Option (Option ℚ)
  lower_bound : Option (Option ℚ)
  email : Option String

/-- Python `str.lower()` as applied to ticker symbols: lowercase every
character. -/
def pyLower (s : String) : String := String.mk (s.data.map Char.toLower)

/-- An HTTP response from the registration endpoint, as built by
`jsonify(...)`: the `status` field, the optional `message` field, and the
HTTP status code. -/
structure JsonResp where
  status : String
  message : Option String
  code : Nat
  deriving DecidableEq, Repr

/-- `set_alert()` (lines 92-113), in source order: read and lowercase
`data['crypto_symbol']`, parse both bounds with `float(...)`, reject
`upper_bound <= lower_bound` with a 400 error response, otherwise insert an
empty list for a new symbol (lines 104-105) and append the rule dict —
whose construction reads `data['email']` and raises `KeyError` when the
field is absent, after the empty list was already inserted. -/
def set_alert (req : SetAlertRequest) (store : Store) :
    Except (PyExn × Store) (JsonResp × Store) :=
  match req.crypto_symbol with
  | Option.none => .error (.keyError "crypto_symbol", store)
  | some sym0 =>
    let crypto_symbol := pyLower sym0
    match req.upper_bound with
    | Option.none => .error (.keyError "upper_bound", store)
    | some Option.none => .error (.valueError, store)
    | some (some upper) =>
      match req.lower_bound with
      | Option.none => .error (.keyError "lower_bound", store)
      | some Option.none => .error (.valueError, store)
      | some (some lower) =>
        if upper ≤ lower then
          .ok (⟨"error", some "Upper bound must be greater than lower bound", 400⟩,
            store)
        else
          let store1 :=
            if (storeLookup store crypto_symbol).isNone then
              store ++ [(crypto_symbol, [])]
            else store
          match req.email with
          | Option.none => .error (.keyError "email", store1)
          | some e =>
            .ok (⟨"success", Option.none, 200⟩,
              storeUpdate store1 crypto_symbol (fun rs => rs ++ [⟨upper, lower, e⟩]))

/-! ## The `/test_email` endpoint (lines 115-122) -/

/-- `test_email()` (lines 115-122): calls `send_email_alert` inside a `try`
and returns the success string unless that call raised. -/
def test_email (username : String) (o : SendOutcome) : PyVal :=
  match (send_email_alert username "Test Email"
      "This is a test email from your Render app" o).ret with
  | .ok _ => .str "Email sent successfully"
  | .error _ => .str "Error sending email"

/-! ## Specification-level description of a tick

Used to state the refinement claim about `check_alerts`: per rule, exactly
one "above" send call when the price strictly exceeds the upper bound, else
exactly one "below" call when strictly under the lower bound, else none. -/

/-- The send calls one rule contributes for a fetched price. -/
def ruleEvents (sym : String) (price : ℚ) (r : AlertRule) : List Event :=
  if price > r.upper_bound then [⟨r.email, .above, sym, price, r.upper_bound⟩]
  else if price < r.lower_bound then [⟨r.email, .below, sym, price, r.lower_bound⟩]
  else []

/-- The send calls a symbol's rule list contributes. -/
def rulesEvents (sym : String) (price : ℚ) : List AlertRule → List Event
  | [] => []
  | r :: rest => ruleEvents sym price r ++ rulesEvents sym price rest

/-- The send calls of a whole tick: symbols whose fetch produced a price
contribute one event per breaching rule, symbols whose fetch failed (returned
`None`) contribute nothing. -/
def specTickEvents (fetch : String → HttpResult) :
    List (String × List AlertRule) → List Event
  | [] => []
  | (sym, rules) :: rest =>
    (match get_crypto_price sym (fetch sym) with
      | .ok (some price) => rulesEvents sym price rules
      | _ => []) ++ specTickEvents fetch rest

/-- The store invariant of the spec: every stored symbol maps to a non-empty
rule list, and every stored rule has `upper_bound > lower_bound`. -/
def StoreInv (store : Store) : Prop :=
  ∀ p ∈ store, p.2 ≠ [] ∧ ∀ r ∈ p.2, r.lower_bound < r.upper_bound

instance : DecidablePred StoreInv := fun store =>
  inferInstanceAs (Decidable (∀ p ∈ store, _ ∧ _))

/-! ## Helper lemmas -/

/-- Every exit path of `send_email_alert` returns Python `None` and raises
nothing. -/
theorem send_email_alert_ret (recipient subject body : String) (o : SendOutcome) :
    (send_email_alert recipient subject body o).ret = .ok PyVal.none := by
  cases o <;> rfl

/-- The inner rule loop never raises: it returns the accumulated events
followed by exactly the per-rule events, with the store untouched. -/
theorem evalRules_ok (env : Env) (sym : String) (price : ℚ) :
    ∀ (rules : List AlertRule) (n : Nat) (st : Store) (acc : List Event),
      ∃ n', evalRules env sym price rules n st acc =
        .ok (acc ++ rulesEvents sym price rules, n', st) := by
  intro rules
  induction rules with
  | nil => intro n st acc; exact ⟨n, by simp [evalRules, rulesEvents]⟩
  | cons r rest ih =>
    intro n st acc
    by_cases h1 : price > r.upper_bound
    · obtain ⟨n', hn'⟩ :=
        ih (n + 1) st (acc ++ [⟨r.email, .above, sym, price, r.upper_bound⟩])
      refine ⟨n', ?_⟩
      simp [evalRules, h1, send_email_alert_ret, hn', rulesEvents, ruleEvents]
    · by_cases h2 : price < r.lower_bound
      · obtain ⟨n', hn'⟩ :=
          ih (n + 1) st (acc ++ [⟨r.email, .below, sym, price, r.lower_bound⟩])
        refine ⟨n', ?_⟩
        simp [evalRules, h1, h2, send_email_alert_ret, hn', rulesEvents, ruleEvents]
      · obtain ⟨n', hn'⟩ := ih n st acc
        refine ⟨n', ?_⟩
        simp [evalRules, h1, h2, hn', rulesEvents, ruleEvents]

/-- The outer loop threads the store through unchanged, whether it returns
or raises. -/
theorem evalSymbols_store (env : Env) :
    ∀ (l : List (String × List AlertRule)) (n : Nat) (st : Store) (acc : List Event),
      (match evalSymbols env l n st acc with
        | .error (_, st') => st'
        | .ok (_, _, st') => st') = st := by
  intro l
  induction l with
  | nil => intro n st acc; simp [evalSymbols]
  | cons p rest ih =>
    intro n st acc
    obtain ⟨sym, rules⟩ := p
    cases hf : get_crypto_price sym (env.fetch sym) with
    | error e => simp [evalSymbols, hf]
    | ok v =>
      cases v with
      | none => simpa [evalSymbols, hf] using ih n st acc
      | some price =>
        obtain ⟨n', hn'⟩ := evalRules_ok env sym price rules n st acc
        simpa [evalSymbols, hf, hn'] using
          ih n' st (acc ++ rulesEvents sym price rules)

/-- `check_alerts` always hands back the store it was given, whether the
tick returned normally or raised. -/
theorem storeAfter_check_alerts (env : Env) (store : Store) :
    storeAfter (check_alerts env store) = store := by
  have h := evalSymbols_store env store 0 store []
  unfold check_alerts storeAfter
  cases he : evalSymbols env store 0 store [] with
  | error es => obtain ⟨e, st⟩ := es; simpa [he] using h
  | ok v => obtain ⟨evts, n', st⟩ := v; simpa [he] using h

/-- When every fetch outcome is a returned value (a price or `None`, never a
raised exception), the whole tick returns normally and its send calls are
exactly the specification-level event list. -/
theorem evalSymbols_ok (env : Env)
    (h : ∀ sym, ∃ v, get_crypto_price sym (env.fetch sym) = .ok v) :
    ∀ (l : List (String × List AlertRule)) (n : Nat) (st : Store) (acc : List Event),
      ∃ n', evalSymbols env l n st acc =
        .ok (acc ++ specTickEvents env.fetch l, n', st) := by
  intro l
  induction l with
  | nil => intro n st acc; exact ⟨n, by simp [evalSymbols, specTickEvents]⟩
  | cons p rest ih =>
    intro n st acc
    obtain ⟨sym, rules⟩ := p
    obtain ⟨v, hv⟩ := h sym
    cases v with
    | none =>
      obtain ⟨n', hn'⟩ := ih n st acc
      exact ⟨n', by simp [evalSymbols, hv, hn', specTickEvents]⟩
    | some price =>
      obtain ⟨n1, hn1⟩ := evalRules_ok env sym price rules n st acc
      obtain ⟨n', hn'⟩ := ih n1 st (acc ++ rulesEvents sym price rules)
      exact ⟨n', by simp [evalSymbols, hv, hn1, hn', specTickEvents]⟩

/-- `check_alerts` under exception-free fetches: returns the spec-level
event list and the unchanged store. -/
theorem check_alerts_ok (env : Env) (store : Store)
    (h : ∀ sym, ∃ v, get_crypto_price sym (env.fetch sym) = .ok v) :
    check_alerts env store = .ok (specTickEvents env.fetch store, store) := by
  obtain ⟨n', hn'⟩ := evalSymbols_ok env h store 0 store []
  simp [check_alerts, hn']

/-- Looking up a key just appended to a store that did not contain it. -/
theorem storeLookup_append_self (s : Store) (k : String) (v : List AlertRule)
    (h : storeLookup s k = Option.none) :
    storeLookup (s ++ [(k, v)]) k = some v := by
  induction s with
  | nil => simp [storeLookup]
  | cons p rest ih =>
    by_cases hp : p.1 = k
    · simp [storeLookup, hp] at h
    · simp only [storeLookup, if_neg hp] at h
      simpa only [List.cons_append, storeLookup, if_neg hp] using ih h

/-- Updating a present key rewrites exactly that key's value. -/
theorem storeLookup_storeUpdate_self (s : Store) (k : String)
    (f : List AlertRule → List AlertRule) (v : List AlertRule)
    (h : storeLookup s k = some v) :
    storeLookup (storeUpdate s k f) k = some (f v) := by
  induction s with
  | nil => simp [storeLookup] at h
  | cons p rest ih =>
    by_cases hp : p.1 = k
    · simp only [storeLookup, if_pos hp] at h
      simp only [storeUpdate, if_pos hp, storeLookup, if_pos hp]
      rw [Option.some.inj h]
    · simp only [storeLookup, if_neg hp] at h
      simp only [storeUpdate, if_neg hp, storeLookup, if_neg hp]
      exact ih h

/-- Updating a key that was just appended to a store not containing it. -/
theorem storeUpdate_append (s : Store) (k : String)
    (f : List AlertRule → List AlertRule) (v : List AlertRule)
    (h : storeLookup s k = Option.none) :
    storeUpdate (s ++ [(k, v)]) k f = s ++ [(k, f v)] := by
  induction s with
  | nil => simp [storeUpdate]
  | cons p rest ih =>
    by_cases hp : p.1 = k
    · simp [storeLookup, hp] at h
    · simp only [storeLookup, hp] at h
      simp only [List.cons_append, storeUpdate, hp, if_neg hp]
      simp [ih h]

/-- Appending a valid rule to one symbol's list preserves the store
invariant. -/
theorem storeInv_update (s : Store) (k : String) (r : AlertRule)
    (hs : StoreInv s) (hr : r.lower_bound < r.upper_bound) :
    StoreInv (storeUpdate s k (fun rs => rs ++ [r])) := by
  induction s with
  | nil => intro p hp; simp [storeUpdate] at hp
  | cons p rest ih =>
    have hrest : StoreInv rest := fun q hq => hs q (List.mem_cons_of_mem p hq)
    by_cases hp : p.1 = k
    · intro q hq
      simp only [storeUpdate, if_pos hp] at hq
      rcases List.mem_cons.mp hq with hq | hq
      · subst hq
        obtain ⟨hne, hall⟩ := hs p (List.mem_cons_self p rest)
        refine ⟨by simp, ?_⟩
        intro x hx
        rcases List.mem_append.mp hx with hx | hx
        · exact hall x hx
        · simp at hx; subst hx; exact hr
      · exact hrest q hq
    · intro q hq
      simp only [storeUpdate, if_neg hp] at hq
      rcases List.mem_cons.mp hq with hq | hq
      · rw [hq]; exact hs p (List.mem_cons_self p rest)
      · exact ih hrest q hq

/-- Appending a fresh symbol with a single valid rule preserves the store
invariant. -/
theorem storeInv_append_single (s : Store) (k : String) (r : AlertRule)
    (hs : StoreInv s) (hr : r.lower_bound < r.upper_bound) :
    StoreInv (s ++ [(k, [r])]) := by
  intro q hq
  rcases List.mem_append.mp hq with hq | hq
  · exact hs q hq
  · simp at hq; subst hq
    exact ⟨by simp, by intro x hx; simp at hx; subst hx; exact hr⟩

/-! ## Concrete instances used by witnesses -/

/-- A valid alert rule: upper bound 70000, lower bound 60000. -/
def ruleW : AlertRule := ⟨70000, 60000, "a@x.com"⟩

/-- A one-symbol store holding `ruleW` under `"bitcoin"`. -/
def storeW : Store := [("bitcoin", [ruleW])]

/-- An environment whose fetch of `"bitcoin"` yields price 71000 and whose
fetch of anything else fails with a caught network error; all sends
succeed. -/
def envW : Env :=
  { fetch := fun s =>
      if s = "bitcoin" then .ok [("bitcoin", [("usd", 71000)])] else .exn,
    send := fun _ => .success }

/-- Fetch environment for the isolation witness: `"eth"` resolves to price
100, everything else fails with a caught network error. -/
def fetchW4 : String → HttpResult := fun s =>
  if s = "eth" then .ok [("eth", [("usd", 100)])] else .exn

/-- A rule under `"eth"` breached from above at price 100. -/
def ruleEth : AlertRule := ⟨50, 10, "a@x.com"⟩

/-- A rule under `"doge"`, a symbol whose fetch fails. -/
def ruleDoge : AlertRule := ⟨1, 0, "b@x.com"⟩

/-- Two-symbol store: the failing symbol first, then the breached one. -/
def storeW4 : Store := [("doge", [ruleDoge]), ("eth", [ruleEth])]

/-- Environment over `fetchW4` in which every SMTP session fails to
authenticate. -/
def envA4 : Env := ⟨fetchW4, fun _ => .authError⟩

/-- Environment over `fetchW4` in which every SMTP session succeeds. -/
def envB4 : Env := ⟨fetchW4, fun _ => .success⟩

/-! ## Claims -/

/-- Claim C1: for every tick and every rule stored under a symbol whose
fetch succeeded with price `p`, the tick makes exactly one "above" send
call for that rule when `p > upper_bound`, else exactly one "below" send
call when `p < lower_bound`, and none when `lower_bound ≤ p ≤ upper_bound`
(bounds strict).  Stated as: the tick's send-call list is exactly the
per-rule event list `specTickEvents`, whose per-rule contribution
`ruleEvents` is the singleton or empty list described by the claim. -/
theorem claim_C1 (env : Env) (store : Store)
    (h : ∀ sym, ∃ v, get_crypto_price sym (env.fetch sym) = .ok v) :
    check_alerts env store = .ok (specTickEvents env.fetch store, store) ∧
    ∀ (sym : String) (price : ℚ) (r : AlertRule),
      (price > r.upper_bound →
        ruleEvents sym price r = [⟨r.email, .above, sym, price, r.upper_bound⟩]) ∧
      (price ≤ r.upper_bound → price < r.lower_bound →
        ruleEvents sym price r = [⟨r.email, .below, sym, price, r.lower_bound⟩]) ∧
      (r.lower_bound ≤ price → price ≤ r.upper_bound →
        ruleEvents sym price r = []) := by
  refine ⟨check_alerts_ok env store h, ?_⟩
  intro sym price r
  refine ⟨fun hgt => by simp [ruleEvents, hgt], fun hle hlt => ?_, fun h1 h2 => ?_⟩
  · simp [ruleEvents, not_lt.mpr hle, hlt]
  · simp [ruleEvents, not_lt.mpr h2, not_lt.mpr h1]

/-- Witness for C1: one rule under `"bitcoin"` with bounds 60000/70000 and a
fetched price of 71000 produces exactly one "above" send call to the rule's
recipient. -/
theorem claim_C1_witness :
    check_alerts envW storeW =
      .ok ([⟨"a@x.com", .above, "bitcoin", 71000, 70000⟩], storeW) := by
  have h := (claim_C1 envW storeW ?_).1
  · exact h.trans (by rfl)
  · intro sym
    by_cases hs : sym = "bitcoin"
    · subst hs; exact ⟨some 71000, rfl⟩
    · exact ⟨Option.none, by simp [envW, get_crypto_price, hs]⟩

/-- Claim C2: registration with `upper_bound ≤ lower_bound` returns the 400
error response with the exact message and leaves the store unchanged. -/
theorem claim_C2 (req : SetAlertRequest) (store : Store) (sym0 : String)
    (u l : ℚ) (h1 : req.crypto_symbol = some sym0)
    (h2 : req.upper_bound = some (some u)) (h3 : req.lower_bound = some (some l))
    (hle : u ≤ l) :
    set_alert req store =
      .ok (⟨"error", some "Upper bound must be greater than lower bound", 400⟩,
        store) := by
  simp [set_alert, h1, h2, h3, hle]

/-- Witness for C2: the spec's example `upper=100, lower=200` on the empty
store yields the error response and the empty store. -/
theorem claim_C2_witness :
    set_alert ⟨some "bitcoin", some (some 100), some (some 200), some "a@x.com"⟩ [] =
      .ok (⟨"error", some "Upper bound must be greater than lower bound", 400⟩,
        []) :=
  claim_C2 _ [] "bitcoin" 100 200 rfl rfl rfl (by norm_num)

/-- Claim C3 is wrong about the code: a successful HTTP response whose JSON
lacks the requested symbol (or the `usd` field) makes `get_crypto_price`
raise `KeyError` — the `except` clause catches only `RequestException` — so
the fetch does not return `None` in that case; it does return `None` on the
`RequestException` class (retry exhaustion, error status, malformed body). -/
theorem claim_C3_missing_key_raises :
    get_crypto_price "bitcoin" (.ok []) = .error (.keyError "bitcoin") ∧
    get_crypto_price "bitcoin" (.ok [("bitcoin", [("eur", 65000)])]) =
      .error (.keyError "usd") ∧
    get_crypto_price "bitcoin" .exn = .ok Option.none :=
  ⟨rfl, rfl, rfl⟩

/-- Counterexample to C4 as stated: with one rule stored under `"bitcoin"`
and a fetch pattern in which the HTTP response is a well-formed JSON object
missing the symbol's price entry, the tick raises `KeyError` — the fetch
error escapes `check_alerts` instead of merely skipping the symbol. -/
theorem claim_C4_counterexample :
    check_alerts ⟨fun _ => HttpResult.ok [], fun _ => SendOutcome.success⟩
        [("bitcoin", [⟨70000, 60000, "a@x.com"⟩])] =
      .error (.keyError "bitcoin", [("bitcoin", [⟨70000, 60000, "a@x.com"⟩])]) :=
  rfl

/-- Claim C4, amended: provided every fetch outcome returns to the caller
(a price or `None` — i.e. no fetch raises `KeyError` through the missing
price-field path), no error from fetch or send escapes the tick: the tick
returns normally for every pattern of per-rule send failures, the tick's
result does not depend on the send-failure pattern at all (so a send failure
for one rule never prevents later rules or symbols from being evaluated and
notified), and a symbol whose fetch returned `None` merely drops out of the
tick's send calls. -/
theorem claim_C4 (fEnv : String → HttpResult) (s1 s2 : Nat → SendOutcome)
    (store : Store) (sym : String) (rules : List AlertRule)
    (h : ∀ s, ∃ v, get_crypto_price s (fEnv s) = .ok v)
    (hsym : get_crypto_price sym (fEnv sym) = .ok Option.none) :
    check_alerts ⟨fEnv, s1⟩ ((sym, rules) :: store) =
      .ok (specTickEvents fEnv ((sym, rules) :: store), (sym, rules) :: store) ∧
    check_alerts ⟨fEnv, s1⟩ ((sym, rules) :: store) =
      check_alerts ⟨fEnv, s2⟩ ((sym, rules) :: store) ∧
    tickEvents (check_alerts ⟨fEnv, s1⟩ ((sym, rules) :: store)) =
      tickEvents (check_alerts ⟨fEnv, s1⟩ store) := by
  have h1 := check_alerts_ok ⟨fEnv, s1⟩ ((sym, rules) :: store) h
  have h2 := check_alerts_ok ⟨fEnv, s2⟩ ((sym, rules) :: store) h
  have h3 := check_alerts_ok ⟨fEnv, s1⟩ store h
  refine ⟨h1, h1.trans h2.symm, ?_⟩
  rw [h1, h3]
  simp [tickEvents, specTickEvents, hsym]

/-- Witness for C4: `"doge"`'s fetch fails (caught network error), `"eth"`'s
succeeds and breaches; with every SMTP session failing authentication the
tick result equals the all-sends-succeed result, and the failed symbol
contributes nothing. -/
theorem claim_C4_witness :
    check_alerts envA4 storeW4 = check_alerts envB4 storeW4 ∧
    tickEvents (check_alerts envA4 storeW4) =
      tickEvents (check_alerts envA4 [("eth", [ruleEth])]) := by
  have hfetch : ∀ s, ∃ v, get_crypto_price s (fetchW4 s) = .ok v := by
    intro s
    by_cases hs : s = "eth"
    · subst hs; exact ⟨some 100, rfl⟩
    · exact ⟨Option.none, by simp [fetchW4, get_crypto_price, hs]⟩
  have hc := claim_C4 fetchW4 (fun _ => .authError) (fun _ => .success)
    [("eth", [ruleEth])] "doge" [ruleDoge] hfetch (by rfl)
  exact ⟨hc.2.1, hc.2.2⟩

/-- Claim C5: a registration with parseable fields and `lower < upper`
returns the success response, and in the store it returns, the lowercased
symbol maps to its previous rule list with the new rule appended at the
end — so the rule is visible in a snapshot taken right after the call. -/
theorem claim_C5 (req : SetAlertRequest) (store : Store) (sym0 : String)
    (u l : ℚ) (e : String) (h1 : req.crypto_symbol = some sym0)
    (h2 : req.upper_bound = some (some u)) (h3 : req.lower_bound = some (some l))
    (h4 : req.email = some e) (hul : l < u) :
    ∃ store', set_alert req store = .ok (⟨"success", Option.none, 200⟩, store') ∧
      storeLookup store' (pyLower sym0) =
        some ((storeLookup store (pyLower sym0)).getD [] ++ [⟨u, l, e⟩]) := by
  cases hn : storeLookup store (pyLower sym0) with
  | none =>
    refine ⟨store ++ [(pyLower sym0, [⟨u, l, e⟩])], ?_, ?_⟩
    · simp only [set_alert, h1, h2, h3, h4, if_neg (not_le.mpr hul), hn,
        Option.isNone_none, if_pos]
      rw [storeUpdate_append store (pyLower sym0) _ [] hn]
      simp
    · rw [storeLookup_append_self store (pyLower sym0) _ hn]
      simp [hn]
  | some rs =>
    refine ⟨storeUpdate store (pyLower sym0) (fun l0 => l0 ++ [⟨u, l, e⟩]), ?_, ?_⟩
    · simp [set_alert, h1, h2, h3, h4, if_neg (not_le.mpr hul), hn]
    · rw [storeLookup_storeUpdate_self store (pyLower sym0) _ rs hn]
      simp [hn]

/-- Witness for C5: the spec's example `upper=70000, lower=60000` on the
empty store succeeds and the rule is found under `"bitcoin"` (symbol given
as `"Bitcoin"`, stored lowercased). -/
theorem claim_C5_witness :
    set_alert ⟨some "Bitcoin", some (some 70000), some (some 60000), some "a@x.com"⟩ [] =
      .ok (⟨"success", Option.none, 200⟩, [("bitcoin", [⟨70000, 60000, "a@x.com"⟩])]) ∧
    storeLookup [("bitcoin", [⟨70000, 60000, "a@x.com"⟩])] (pyLower "Bitcoin") =
      some [⟨70000, 60000, "a@x.com"⟩] := by
  obtain ⟨store', hset, hlook⟩ :=
    claim_C5 ⟨some "Bitcoin", some (some 70000), some (some 60000), some "a@x.com"⟩
      [] "Bitcoin" 70000 60000 "a@x.com" rfl rfl rfl rfl (by norm_num)
  have hev : set_alert
      ⟨some "Bitcoin", some (some 70000), some (some 60000), some "a@x.com"⟩
      ([] : Store) =
      .ok (⟨"success", Option.none, 200⟩, [("bitcoin", [⟨70000, 60000, "a@x.com"⟩])]) :=
    rfl
  have hst : store' = [("bitcoin", [⟨70000, 60000, "a@x.com"⟩])] := by
    have hh := hev.symm.trans hset
    simp only [Except.ok.injEq, Prod.mk.injEq] at hh
    exact hh.2.symm
  subst hst
  exact ⟨hset, by simpa using hlook⟩

/-- Counterexample to C6 as stated: a registration whose bounds validate
(`70000 > 60000`) but whose request lacks the `email` field first inserts an
empty rule list for the new symbol (lines 104-105) and only then raises
`KeyError` while building the rule dict — the invariant-violating store
`[("bitcoin", [])]` is left behind by a registration. -/
theorem claim_C6_counterexample :
    StoreInv [] ∧
    set_alert ⟨some "bitcoin", some (some 70000), some (some 60000), Option.none⟩ [] =
      .error (.keyError "email", [("bitcoin", [])]) ∧
    ¬ StoreInv [("bitcoin", [])] := by
  refine ⟨by decide, rfl, fun h => ?_⟩
  exact (h ("bitcoin", []) (by simp)).1 rfl

/-- Claim C6, amended: the invariant — every stored symbol maps to a
non-empty rule list whose rules all satisfy `upper_bound > lower_bound` —
is preserved by every registration call that returns a response (success or
validation error) and by every evaluation tick; a registration that raises
`KeyError` on a missing `email` field after passing validation can leave a
fresh symbol holding an empty rule list. -/
theorem claim_C6 :
    (∀ (req : SetAlertRequest) (store : Store) (resp : JsonResp) (store' : Store),
        StoreInv store → set_alert req store = .ok (resp, store') →
        StoreInv store') ∧
    (∀ (env : Env) (store : Store), StoreInv store →
        StoreInv (storeAfter (check_alerts env store))) := by
  constructor
  · intro req store resp store' hInv hok
    obtain ⟨cs, ub, lb, em⟩ := req
    cases cs with
    | none => simp [set_alert] at hok
    | some sym0 =>
      cases ub with
      | none => simp [set_alert] at hok
      | some ubv =>
        cases ubv with
        | none => simp [set_alert] at hok
        | some u =>
          cases lb with
          | none => simp [set_alert] at hok
          | some lbv =>
            cases lbv with
            | none => simp [set_alert] at hok
            | some l =>
              by_cases hle : u ≤ l
              · simp only [set_alert, if_pos hle, Except.ok.injEq,
                  Prod.mk.injEq] at hok
                rw [← hok.2]
                exact hInv
              · cases em with
                | none =>
                  cases hn : storeLookup store (pyLower sym0) <;>
                    simp [set_alert, if_neg hle, hn] at hok
                | some e =>
                  have hul : l < u := not_le.mp hle
                  cases hn : storeLookup store (pyLower sym0) with
                  | none =>
                    simp only [set_alert, if_neg hle, hn, Option.isNone_none,
                      if_pos, Except.ok.injEq, Prod.mk.injEq] at hok
                    rw [← hok.2, storeUpdate_append store (pyLower sym0) _ [] hn]
                    exact storeInv_append_single store (pyLower sym0) ⟨u, l, e⟩
                      hInv hul
                  | some rs =>
                    simp only [set_alert, if_neg hle, hn, Option.isNone_some,
                      Bool.false_eq_true, if_neg, Except.ok.injEq,
                      Prod.mk.injEq] at hok
                    rw [← hok.2]
                    exact storeInv_update store (pyLower sym0) ⟨u, l, e⟩ hInv hul
  · intro env store h
    rw [storeAfter_check_alerts]
    exact h

/-- Witness for C6: a successful registration on the empty store yields a
store satisfying the invariant, and a tick over it preserves the
invariant. -/
theorem claim_C6_witness :
    StoreInv [("bitcoin", [⟨70000, 60000, "c@x.com"⟩])] ∧
    StoreInv (storeAfter (check_alerts envW [("bitcoin", [⟨70000, 60000, "c@x.com"⟩])])) := by
  have h1 : StoreInv [("bitcoin", [⟨70000, 60000, "c@x.com"⟩])] :=
    claim_C6.1 ⟨some "bitcoin", some (some 70000), some (some 60000), some "c@x.com"⟩
      [] ⟨"success", Option.none, 200⟩ [("bitcoin", [⟨70000, 60000, "c@x.com"⟩])]
      (by decide) rfl
  exact ⟨h1, claim_C6.2 envW _ h1⟩

/-- Claim C7: the evaluation tick never writes the rule store — whatever the
fetch and send outcomes, and whether the tick returns or raises, the store
it hands back is the store it was given. -/
theorem claim_C7 (env : Env) (store : Store) :
    storeAfter (check_alerts env store) = store :=
  storeAfter_check_alerts env store

/-- Claim C9: registration requests missing `crypto_symbol`, missing
`upper_bound`, missing `lower_bound`, or carrying a bound that `float(...)`
cannot parse, make `set_alert` raise `KeyError` / `ValueError` before any
validation or store mutation (the returned store is the input store),
instead of returning a structured error response. -/
theorem claim_C9 (store : Store) :
    set_alert ⟨Option.none, some (some 1), some (some 0), some "a@x.com"⟩ store =
      .error (.keyError "crypto_symbol", store) ∧
    set_alert ⟨some "bitcoin", Option.none, some (some 0), some "a@x.com"⟩ store =
      .error (.keyError "upper_bound", store) ∧
    set_alert ⟨some "bitcoin", some (some 1), Option.none, some "a@x.com"⟩ store =
      .error (.keyError "lower_bound", store) ∧
    set_alert ⟨some "bitcoin", some Option.none, some (some 0), some "a@x.com"⟩ store =
      .error (.valueError, store) :=
  ⟨rfl, rfl, rfl, rfl⟩

/-- Claim C10: `send_email_alert` returns Python `None` on every exit path —
success, authentication failure, or any other transmission failure — so a
caller cannot tell a delivered notification from a swallowed failure; in
particular `test_email` answers `"Email sent successfully"` for every
outcome, including an authentication failure in which nothing was
delivered. -/
theorem claim_C10 (recipient subject body username : String) (o : SendOutcome) :
    (send_email_alert recipient subject body o).ret = .ok PyVal.none ∧
    test_email username o = PyVal.str "Email sent successfully" ∧
    (send_email_alert recipient subject body SendOutcome.authError).delivered
      = false := by
  refine ⟨send_email_alert_ret recipient subject body o, ?_, rfl⟩
  cases o <;> rfl

end CryptoAlert
